import Mathlib

/-!
Shallow embedding of the artwork identity / deduplication core of the
yaminuibot repository (src/main.py, src/extra/, src/db/), together with
theorems settling the frozen claims about it.

Conventions:
* Python lists become Lean `List`s; `None`-able values become `Option`;
  code that raises becomes `Except`.
* Machine integers are `Int`/`Nat` (Python integers are unbounded, so no
  modular wrap is needed anywhere in this code base).
* Every definition is translated from the source file and line range noted
  in its doc comment.
-/

namespace Yaminui

/-! ## Selection parsing (src/main.py lines 210, 723-726, 1388-1399) -/

/-- Python `\s` whitespace class, as used by `re` on the characters that
occur in this code base. -/
def isSpaceChar (c : Char) : Bool :=
  c = ' ' || c = '\t' || c = '\n' || c = '\r' || c = '\x0b' || c = '\x0c'

/-- Guard regex `pixiv_regex = r"^(?:\s*\d+\s*)+$"` from src/main.py line 210,
as used by `re.search` (anchored on both sides, so it is a full match).
A string matches exactly when every character is a digit or whitespace and
at least one digit occurs. -/
def pixivGuard (t : String) : Bool :=
  t.data.all (fun c => c.isDigit || isSpaceChar c) && t.data.any Char.isDigit

/-- Accumulator for `extractNumbers`: `cur` is the value of the digit run
currently being read, if any. -/
def numsAux : List Char → Option Nat → List Nat → List Nat
  | [], cur, acc =>
      match cur with
      | some n => acc ++ [n]
      | none => acc
  | c :: rest, cur, acc =>
      if c.isDigit then
        numsAux rest (some ((cur.getD 0) * 10 + (c.toNat - 48))) acc
      else
        match cur with
        | some n => numsAux rest none (acc ++ [n])
        | none => numsAux rest none acc

/-- `[int(i.group()) for i in re.finditer(r"\d+", text)]` from
src/main.py line 1390: the values of the maximal digit runs of `text`,
in order of occurrence. -/
def extractNumbers (t : String) : List Nat :=
  numsAux t.data none []

/-- `unduplicate` from src/main.py lines 723-726: first-occurrence-order
deduplication (the Python version keeps a `seen` set, whose contents always
equal the elements already emitted, so membership in the output so far is
the same test). -/
def unduplicate (l : List Nat) : List Nat :=
  l.foldl (fun acc i => if i ∈ acc then acc else acc ++ [i]) []

/-- Outcome of the selection branch of `universal`
(src/main.py lines 1388-1399). `noSelection` is the case where the guard
regex does not match and the branch is not taken at all; `tooMany` and
`outOfBounds` are the two `send_error` exits; `ok` carries the accepted
index list. -/
inductive SelResult where
  | noSelection
  | tooMany
  | outOfBounds
  | ok (ids : List Nat)
  deriving DecidableEq, Repr

/-- The error checks of the selection branch (src/main.py lines 1391-1399)
on an already deduplicated id list: reject more than 10 ids, then reject
when `max(ids) > count or min(ids) < 1` (the guard forces at least one
number into the list, so Python's `max`/`min` are defined; they are read
here through `max?`/`min?`). -/
def selectBranch (ids : List Nat) (count : Nat) : SelResult :=
  if ids.length > 10 then .tooMany
  else if (ids.max?.getD 0) > count || (ids.min?.getD 0) < 1 then
    .outOfBounds
  else .ok ids

/-- The selection branch of `universal` (src/main.py lines 1388-1399):
guard with `re.search(pixiv_regex, text)`, extract and deduplicate all
numbers, then run the error checks of `selectBranch`. -/
def universalSelection (t : String) (count : Nat) : SelResult :=
  if pixivGuard t then selectBranch (unduplicate (extractNumbers t)) count
  else .noSelection

/-! ## Channel identity codec (src/db/models.py line 47,
src/extra/helpers.py lines 88-89) -/

/-- `cid = column_property(-(id + 10**12))` from src/db/models.py line 47:
the public channel id derived from the internal (negative) transport id. -/
def publicId (internal : Int) : Int := -(internal + 10 ^ 12)

/-- `-(cid + 10**12)` from src/extra/helpers.py line 89 (`get_post_link`
formats `telegram_link` with this value): the same affine map applied on
the way back. -/
def internalId (cid : Int) : Int := -(cid + 10 ^ 12)

/-- `get_post_link` from src/extra/helpers.py lines 88-89, with
`telegram_link = "t.me/c/{cid}/{post_id}"` from src/extra/__init__.py. -/
def get_post_link (cid : Int) (post_id : Nat) : String :=
  "t.me/c/" ++ toString (internalId cid) ++ "/" ++ toString post_id

/-! ## Channel record validators (src/db/models.py lines 36-51) -/

/-- The mutable part of a `Channel` row that the claims are about: the
write-once `id` column, `none` while unset (SQLAlchemy attributes start as
`None`). -/
structure ChannelRec where
  id : Option Int
  deriving DecidableEq, Repr

/-- Python truthiness of the current `self.id` value (`None` and `0` are
falsy, every other integer truthy), as tested by `if self.id:` in
src/db/models.py line 40. -/
def idTruthy : Option Int → Bool
  | none => false
  | some v => v ≠ 0

/-- `_write_once_id` validator from src/db/models.py lines 38-44: raises if
`self.id` is already (truthily) set, raises if the value is not negative,
otherwise the assignment goes through. A raise leaves the record unchanged
(SQLAlchemy validators run before assignment), which the `Except.error`
branch models by carrying no record. -/
def setChannelId (ch : ChannelRec) (value : Int) : Except String ChannelRec :=
  if idTruthy ch.id then .error "write-once"
  else if ¬ value < 0 then .error "cant-be-positive"
  else .ok { id := some value }

/-- The derived `cid` column property of src/db/models.py line 47, read on
a record: `-(id + 10**12)` recomputed from the stored `id`. -/
def channelCidOf (ch : ChannelRec) : Option Int :=
  ch.id.map publicId

/-- `_read_only_cid` validator from src/db/models.py lines 49-51: every
assignment attempt to `cid` raises, unconditionally. -/
def setChannelCid (ch : ChannelRec) (value : Int) : Except String ChannelRec :=
  .error "read-only"

/-! ## User pixiv_style validation (src/db/models.py lines 117-124,
src/extra/__init__.py lines 13-25) -/

/-- `PixivStyle.styles = range(6)` from src/extra/__init__.py lines 13-21. -/
def pixivStyles : List Int := [0, 1, 2, 3, 4, 5]

/-- `PixivStyle.validate` from src/extra/__init__.py lines 23-25:
membership in the closed style set. -/
def pixivStyleValidate (value : Int) : Bool :=
  pixivStyles.contains value

/-- `validate_pixiv_style` from src/db/models.py lines 120-124: the valid
value is assigned, an invalid one raises `ValueError` (modelled as
`Except.error`) before any assignment happens. -/
def trySetPixivStyle (cur value : Int) : Except String Int :=
  if pixivStyleValidate value then .ok value
  else .error "invalid-style"

/-- An assignment attempt as seen from the record: on a raise the stored
value is unchanged. -/
def applyPixivStyle (cur value : Int) : Int :=
  (trySetPixivStyle cur value).toOption.getD cur

/-- A `User` row's `pixiv_style` after a sequence of assignment attempts,
starting from the column default `1` (src/db/models.py line 118). -/
def runPixivStyles (vs : List Int) : Int :=
  vs.foldl applyPixivStyle 1

/-! ## Artwork store and the migrate_db pass (src/db/migrate_db.py
lines 76-134, src/db/models.py lines 134-217) -/

/-- An `ArtWork` row (src/db/models.py lines 184-217): identity key
`(type, aid)` plus the opaque file list.  `files = []` models the Python
falsy cases (`None` or an empty list). -/
structure ArtRow where
  aid : Nat
  atype : Nat
  files : List String
  deriving DecidableEq, Repr

/-- A `Post` row (src/db/models.py lines 134-181); the artwork reference is
kept as the `(type, aid)` identity of the referenced `ArtWork` row. -/
structure PostRow where
  aid : Nat
  atype : Nat
  channel_id : Int
  post_id : Nat
  post_date : Nat
  is_original : Bool
  is_forwarded : Bool
  deriving DecidableEq, Repr

/-- One record of the `artworks.json` input consumed by `migrate_db`
(src/db/migrate_db.py lines 76-106). -/
structure ArtPost where
  aid : Nat
  atype : Nat
  files : List String
  channel_id : Int
  post_id : Nat
  post_date : Nat
  is_forwarded : Bool
  deriving DecidableEq, Repr

/-- The store state threaded through `migrate_db`'s artpost loop:
artwork rows and post rows, each in insertion (row) order. -/
structure MStore where
  arts : List ArtRow
  posts : List PostRow
  deriving DecidableEq, Repr

/-- `s.query(ArtWork).filter_by(aid=..).filter_by(type=..).first()` from
src/db/migrate_db.py lines 79-84: the first row with the given identity. -/
def findArt (arts : List ArtRow) (aid atype : Nat) : Option ArtRow :=
  arts.find? (fun a => a.aid = aid ∧ a.atype = atype)

/-- Number of artwork rows with the given identity. -/
def countArt (arts : List ArtRow) (aid atype : Nat) : Nat :=
  (arts.filter (fun a => a.aid = aid ∧ a.atype = atype)).length

/-- The find-or-create-with-backfill step of `migrate_db`
(src/db/migrate_db.py lines 79-96): if a row with the identity exists, its
`files` are overwritten only when the supplied files are truthy (non-empty)
and the stored files falsy (empty); otherwise a fresh row is added. The
first matching row in row order is the one `first()` returns and the one
updated. -/
def resolveArt : List ArtRow → Nat → Nat → List String → List ArtRow
  | [], aid, atype, files => [⟨aid, atype, files⟩]
  | a :: rest, aid, atype, files =>
      if a.aid = aid ∧ a.atype = atype then
        (if files ≠ [] ∧ a.files = [] then { a with files := files } else a)
          :: rest
      else
        a :: resolveArt rest aid atype files

/-- A sequence of resolve calls for one identity, applied in order. -/
def runResolve (arts : List ArtRow) (aid atype : Nat)
    (fs : List (List String)) : List ArtRow :=
  fs.foldl (fun s f => resolveArt s aid atype f) arts

/-- The `files` of the row `first()` would return for the identity. -/
def filesOf (arts : List ArtRow) (aid atype : Nat) : Option (List String) :=
  (findArt arts aid atype).map ArtRow.files

/-- The first truthy (non-empty) file list supplied across a sequence of
calls, or `[]` when every call supplied an empty list. -/
def firstNonEmpty (fs : List (List String)) : List String :=
  (fs.find? (fun f => f ≠ [])).getD []

/-- The post row `migrate_db` builds for one artpost record
(src/db/migrate_db.py lines 98-107); note
`is_original = False if artpost["is_forwarded"] else True`. -/
def mkPostRow (ap : ArtPost) : PostRow :=
  { aid := ap.aid
    atype := ap.atype
    channel_id := ap.channel_id
    post_id := ap.post_id
    post_date := ap.post_date
    is_original := !ap.is_forwarded
    is_forwarded := ap.is_forwarded }

/-- Committing a new `Post` row against the store: the schema's
`UniqueConstraint("channel_id", "post_id", name="uix_post")`
(src/db/models.py lines 178-181) rejects a row whose `(channel_id, post_id)`
already exists; the database raises (`IntegrityError`), which no code in
src/db/migrate_db.py catches, so the error propagates. -/
def hasPost (posts : List PostRow) (channel_id : Int) (post_id : Nat) :
    Bool :=
  posts.any (fun q => q.channel_id = channel_id ∧ q.post_id = post_id)

/-- See `hasPost` for the constraint key. -/
def insertPostRow (posts : List PostRow) (p : PostRow) :
    Except String (List PostRow) :=
  if hasPost posts p.channel_id p.post_id
  then .error "uix_post"
  else .ok (posts ++ [p])

/-- One iteration of the artpost loop of `migrate_db`
(src/db/migrate_db.py lines 76-111): find-or-create the artwork (with file
backfill), then add and commit the post row. -/
def migrateStep (s : MStore) (ap : ArtPost) : Except String MStore :=
  let arts := resolveArt s.arts ap.aid ap.atype ap.files
  match insertPostRow s.posts (mkPostRow ap) with
  | .ok ps => .ok ⟨arts, ps⟩
  | .error e => .error e

/-- `check_original` from src/main.py lines 734-741: true exactly when no
artwork row with the identity exists yet (`not bool(count)`). -/
def check_original (arts : List ArtRow) (aid atype : Nat) : Bool :=
  !(decide (0 < countArt arts aid atype))

/-! ## Reconciliation pass (src/db/migrate_db.py lines 114-134) -/

/-- What the reconciliation loop of `migrate_db` does to the post list of
one artwork (src/db/migrate_db.py lines 116-132): for a group with more
than one member, every post but the first of the relationship list
(`artwork.posts[1:]`, which without an `order_by` is row/insertion order)
gets `is_original = False`; the first member is left untouched. Groups of
at most one member are not selected by the `having count > 1` filter and
stay unchanged. -/
def reconcileGroup (ps : List PostRow) : List PostRow :=
  if 1 < ps.length then
    match ps with
    | [] => []
    | h :: t => h :: t.map (fun p => { p with is_original := false })
  else ps

/-! ## Identity extractor (src/extra/helpers.py lines 36-55,
src/extra/__init__.py lines 55-83) -/

/-- `LinkType.TWITTER, LinkType.PIXIV = range(2)` from
src/extra/__init__.py lines 43-47. -/
def TWITTER : Nat := 0

/-- See `TWITTER`. -/
def PIXIV : Nat := 1

/-- The `Link` namedtuple from src/extra/namedtuples.py lines 4-11:
`(type, link, id)`. -/
structure Link where
  type : Nat
  link : String
  id : Nat
  deriving DecidableEq, Repr

/-- Consume an exact literal (first argument) at the head of the input,
returning the rest; `none` when the input does not start with it. -/
def dropLit : List Char → List Char → Option (List Char)
  | [], cs => some cs
  | _ :: _, [] => none
  | p :: ps, c :: cs => if c = p then dropLit ps cs else none

/-- Split off the maximal leading digit run. -/
def takeDigits (cs : List Char) : List Char × List Char :=
  (cs.takeWhile Char.isDigit, cs.dropWhile Char.isDigit)

/-- Numeric value of a digit string (`int(link.group("id"))`). -/
def natOfDigits (ds : List Char) : Nat :=
  ds.foldl (fun n c => n * 10 + (c.toNat - 48)) 0

/-- Regex `\w` word-character class over the characters this grammar can
meet. -/
def isWordChar (c : Char) : Bool :=
  c.isAlphanum || c = '_'

/-- The part of the pixiv pattern after `pixiv.net/` has been consumed:
`(?:\w{2}\/)?(?:artworks\/)(?P<id>\d+)` (src/extra/__init__.py lines
71-79). The optional two-letter language segment is tried first (greedy),
falling back to omitting it; the id is a maximal non-empty digit run.
Returns the id digits and the rest of the input after the match. -/
def pixivAfterHost (cs : List Char) : Option (List Char × List Char) :=
  let tail := fun (cs3 : List Char) =>
    (dropLit "artworks/".data cs3).bind fun cs4 =>
      let (ds, rest) := takeDigits cs4
      if ds = [] then none else some (ds, rest)
  (match cs with
   | a :: b :: '/' :: rest2 =>
       if isWordChar a && isWordChar b then tail rest2 else none
   | _ => none).orElse (fun _ => tail cs)

/-- Try the whole pixiv pattern
`(?:(?:www\.)?(?:pixiv\.net\/)(?:\w{2}\/)?(?:artworks\/))(?P<id>\d+)`
at this exact position: the optional `www.` is tried first (greedy),
falling back to matching `pixiv.net/` directly. On success, build the
`Link` the way `formatter` does: canonical URL
`"https://www.pixiv.net/artworks/{id}"` with the raw digit group, and the
numeric id. -/
def pixivTry (cs : List Char) : Option (Link × List Char) :=
  (((dropLit "www.pixiv.net/".data cs).bind pixivAfterHost).orElse
      (fun _ => (dropLit "pixiv.net/".data cs).bind pixivAfterHost)).map
    fun (ds, rest) =>
      (⟨PIXIV, "https://www.pixiv.net/artworks/" ++ String.mk ds,
        natOfDigits ds⟩, rest)

/-- The part of the twitter pattern after the author group:
`\/(?:status(?:es)?\/)(?P<id>\d+)` (src/extra/__init__.py lines 57-65).
The optional `es` is greedy; only one of `"/statuses/"` / `"/status/"`
can match at a given position, so no further backtracking arises. -/
def twitterAfterAuthor (cs : List Char) : Option (List Char × List Char) :=
  ((dropLit "/statuses/".data cs).orElse
      (fun _ => dropLit "/status/".data cs)).bind fun cs2 =>
    let (ds, rest) := takeDigits cs2
    if ds = [] then none else some (ds, rest)

/-- The lazy author group `(?P<author>.+?)` followed by the status part:
the author is the shortest non-empty newline-free char run after which
`twitterAfterAuthor` succeeds. `acc` is the author read so far, in order.
Returns (author, id digits, rest). -/
def twitterAuthorSearch :
    List Char → List Char → Option (List Char × List Char × List Char)
  | _, [] => none
  | acc, c :: rest =>
      if c = '\n' then none
      else
        match twitterAfterAuthor rest with
        | some (ds, r) => some (acc ++ [c], ds, r)
        | none => twitterAuthorSearch (acc ++ [c]) rest

/-- Try the whole twitter pattern
`(?:(?:www\.)?(?:twitter\.com\/)(?P<author>.+?)\/(?:status(?:es)?\/))(?P<id>\d+)`
at this exact position. On success, build the `Link` the way `formatter`
does: canonical URL `"https://twitter.com/{author}/status/{id}"` from the
raw groups, and the numeric id. -/
def twitterTry (cs : List Char) : Option (Link × List Char) :=
  (((dropLit "www.twitter.com/".data cs).orElse
        (fun _ => dropLit "twitter.com/".data cs)).bind
      (twitterAuthorSearch [])).map
    fun (author, ds, rest) =>
      (⟨TWITTER,
        "https://twitter.com/" ++ String.mk author ++ "/status/"
          ++ String.mk ds,
        natOfDigits ds⟩, rest)

/-- `re.finditer` over one pattern: scan left to right, at each position
try the pattern; on a match emit it and continue after the matched span
(matches are non-overlapping), otherwise advance one character. The fuel
argument (initially the input length) bounds the iteration count; every
match consumes at least one character, so the fuel never runs out before
the input does. -/
def scanAux (tryM : List Char → Option (Link × List Char)) :
    Nat → List Char → List Link
  | 0, _ => []
  | _ + 1, [] => []
  | n + 1, c :: rest =>
      match tryM (c :: rest) with
      | some (l, r) => l :: scanAux tryM n r
      | none => scanAux tryM n rest

/-- All matches of one pattern over the text, in text order. -/
def scanLinks (tryM : List Char → Option (Link × List Char))
    (cs : List Char) : List Link :=
  scanAux tryM cs.length cs

/-- `formatter` from src/extra/helpers.py lines 36-55: falsy (empty) text
returns `None`; otherwise the patterns of `link_dict` are run in
registration order — every twitter match over the whole text first, then
every pixiv match — and the `Link`s are appended in that order.
(The copy in src/main.py lines 274-293 is identical except that its
twitter regex lacks the optional `es` after `status`.) -/
def formatter (query : String) : Option (List Link) :=
  if query = "" then none
  else some (scanLinks twitterTry query.data ++ scanLinks pixivTry query.data)

/-! ## Helper lemmas -/

/-- The fold underlying `unduplicate` keeps its accumulator duplicate-free. -/
theorem unduplicate_foldl_nodup (l : List Nat) :
    ∀ acc : List Nat, acc.Nodup →
      (l.foldl (fun acc i => if i ∈ acc then acc else acc ++ [i]) acc).Nodup := by
  induction l with
  | nil => intro acc h; simpa using h
  | cons x xs ih =>
      intro acc h
      simp only [List.foldl_cons]
      by_cases hx : x ∈ acc
      · rw [if_pos hx]; exact ih acc h
      · rw [if_neg hx]
        refine ih (acc ++ [x]) ?_
        simp [List.nodup_append, h, hx]

/-- `unduplicate` returns a duplicate-free list. -/
theorem unduplicate_nodup (l : List Nat) : (unduplicate l).Nodup :=
  unduplicate_foldl_nodup l [] List.nodup_nil

/-- Case analysis of the selection error checks on the deduplicated list. -/
theorem selectBranch_spec (ids : List Nat) (count : Nat) :
    (selectBranch ids count = .tooMany ↔ 10 < ids.length) ∧
    (ids.length ≤ 10 →
      (selectBranch ids count = .outOfBounds ↔
        (count < ids.max?.getD 0 ∨ ids.min?.getD 0 < 1))) ∧
    (ids.length ≤ 10 → ids.max?.getD 0 ≤ count → 1 ≤ ids.min?.getD 0 →
      selectBranch ids count = .ok ids) := by
  unfold selectBranch
  by_cases h10 : ids.length > 10
  · rw [if_pos h10]
    refine ⟨by simpa using h10, fun hle => ?_, fun hle _ _ => ?_⟩
    · omega
    · omega
  · rw [if_neg h10]
    by_cases hb : (ids.max?.getD 0 > count || ids.min?.getD 0 < 1) = true
    · rw [if_pos hb]
      simp only [Bool.or_eq_true, decide_eq_true_eq] at hb
      refine ⟨?_, fun _ => ?_, fun _ hmax hmin => ?_⟩
      · constructor
        · intro hc; simp at hc
        · intro hc; omega
      · simpa using hb
      · omega
    · rw [if_neg hb]
      simp only [Bool.or_eq_true, decide_eq_true_eq, not_or, not_lt] at hb
      refine ⟨?_, fun _ => ?_, fun _ _ _ => rfl⟩
      · constructor
        · intro hc; simp at hc
        · intro hc; omega
      · constructor
        · intro hc; simp at hc
        · intro hc; omega

/-! ## Claim theorems -/

/-- C4: the Channel Identity Codec computes `publicId x = -(x + 10^12)`
over exact integers, `internalId` is the same affine map, and the
round-trip `internalId (publicId x) = x` holds for every (negative)
internal id. -/
theorem channel_codec_roundtrip (x : Int) (h : x < 0) :
    publicId x = -(x + 10 ^ 12) ∧ internalId (publicId x) = x := by
  refine ⟨rfl, ?_⟩
  unfold publicId internalId
  ring

/-- Witness for `channel_codec_roundtrip` at a concrete negative id. -/
theorem channel_codec_roundtrip_witness :
    ((-1234567 : Int) < 0) ∧
      (publicId (-1234567) = -((-1234567) + 10 ^ 12) ∧
        internalId (publicId (-1234567)) = -1234567) :=
  ⟨by norm_num, channel_codec_roundtrip (-1234567) (by norm_num)⟩

/-- C9: a Channel's `id` accepts only a negative value and only a single
assignment (a second assignment, or a non-negative value, errors without
producing a changed record), and `cid` is never directly assignable — it is
always recomputed from `id` as `-(id + 10^12)`. -/
theorem channel_id_write_once (v w : Int) (hv : v < 0) :
    setChannelId ⟨none⟩ v = .ok ⟨some v⟩ ∧
    (0 ≤ w → setChannelId ⟨none⟩ w = .error "cant-be-positive") ∧
    setChannelId ⟨some v⟩ w = .error "write-once" ∧
    channelCidOf ⟨some v⟩ = some (-(v + 10 ^ 12)) ∧
    setChannelCid ⟨some v⟩ w = .error "read-only" := by
  have hv0 : v ≠ 0 := by omega
  refine ⟨?_, ?_, ?_, rfl, rfl⟩
  · simp [setChannelId, idTruthy, hv]
  · intro hw
    simp [setChannelId, idTruthy]
    omega
  · simp [setChannelId, idTruthy, hv0]

/-- Witness for `channel_id_write_once` at `v = -5`, `w = 3`. -/
theorem channel_id_write_once_witness :
    ((-5 : Int) < 0) ∧
      (setChannelId ⟨none⟩ (-5) = .ok ⟨some (-5)⟩ ∧
       ((0 : Int) ≤ 3 → setChannelId ⟨none⟩ 3 = .error "cant-be-positive") ∧
       setChannelId ⟨some (-5)⟩ 3 = .error "write-once" ∧
       channelCidOf ⟨some (-5)⟩ = some (-((-5) + 10 ^ 12)) ∧
       setChannelCid ⟨some (-5)⟩ 3 = .error "read-only") :=
  ⟨by norm_num, channel_id_write_once (-5) 3 (by norm_num)⟩

/-- The `pixiv_style` fold keeps the stored value inside the closed style
set as long as it starts there. -/
theorem pixivStyle_foldl_valid (vs : List Int) :
    ∀ cur : Int, pixivStyleValidate cur = true →
      pixivStyleValidate (vs.foldl applyPixivStyle cur) = true := by
  induction vs with
  | nil => intro cur h; simpa using h
  | cons v rest ih =>
      intro cur h
      simp only [List.foldl_cons]
      refine ih _ ?_
      by_cases hv : pixivStyleValidate v = true
      · simpa [applyPixivStyle, trySetPixivStyle, hv, Except.toOption]
      · simp only [Bool.not_eq_true] at hv
        simpa [applyPixivStyle, trySetPixivStyle, hv, Except.toOption]

/-- C10: every reachable `pixiv_style` value (starting from the default `1`
and applying any sequence of assignment attempts) lies in the closed style
set `{0,...,5}`; an invalid assignment raises and leaves the value
unchanged. -/
theorem user_pixiv_style_invariant (vs : List Int) (cur v : Int)
    (hv : pixivStyleValidate v = false) :
    pixivStyleValidate (runPixivStyles vs) = true ∧
    trySetPixivStyle cur v = .error "invalid-style" ∧
    applyPixivStyle cur v = cur := by
  refine ⟨pixivStyle_foldl_valid vs 1 (by decide), ?_, ?_⟩
  · simp [trySetPixivStyle, hv]
  · simp [applyPixivStyle, trySetPixivStyle, hv, Except.toOption]

/-- Witness for `user_pixiv_style_invariant`: the sequence `[3, 99, 2]`
of attempts and the invalid value `99` against stored value `4`. -/
theorem user_pixiv_style_invariant_witness :
    pixivStyleValidate 99 = false ∧
      (pixivStyleValidate (runPixivStyles [3, 99, 2]) = true ∧
       trySetPixivStyle 4 99 = .error "invalid-style" ∧
       applyPixivStyle 4 99 = 4) :=
  ⟨by decide, user_pixiv_style_invariant [3, 99, 2] 4 99 (by decide)⟩

/-- C2 counterexample: the selection handler does not expand `n1-n2`
ranges; `"5-3"` does not even match its selection grammar
(`^(?:\s*\d+\s*)+$`), so with count 10 it yields no selection instead of
`[5, 4, 3]`. -/
theorem selection_range_cex :
    universalSelection "5-3" 10 = .noSelection ∧
    universalSelection "5-3" 10 ≠ .ok [5, 4, 3] := by
  decide

/-- C2 amended: any text containing a `-` is rejected by the selection
grammar of `universal`, so no descending (or any) range expansion ever
happens; in particular `"5-3"` yields no selection. -/
theorem selection_no_ranges (t : String) (count : Nat)
    (h : '-' ∈ t.data) :
    universalSelection t count = .noSelection := by
  have hall : t.data.all (fun c => c.isDigit || isSpaceChar c) = false := by
    cases hc : t.data.all (fun c => c.isDigit || isSpaceChar c) with
    | false => rfl
    | true =>
        rw [List.all_eq_true] at hc
        exact absurd (hc '-' h) (by decide)
  unfold universalSelection pixivGuard
  rw [hall]
  simp

/-- Witness for `selection_no_ranges` at `"5-3"`, count 10. -/
theorem selection_no_ranges_witness :
    '-' ∈ "5-3".data ∧ universalSelection "5-3" 10 = .noSelection :=
  ⟨by decide, selection_no_ranges "5-3" 10 (by decide)⟩

/-- C3 counterexample: `"1,1,2"` contains commas, which the selection
grammar of `universal` rejects, so with count 10 it yields no selection
instead of `[1, 2]`. -/
theorem selection_dedup_cex :
    universalSelection "1,1,2" 10 = .noSelection ∧
    universalSelection "1,1,2" 10 ≠ .ok [1, 2] := by
  decide

/-- C3 amended: on text accepted by the selection grammar (digits and
whitespace only), the handler fails with the too-many error exactly when
the deduplicated list exceeds 10 entries, fails with the out-of-bounds
error (when not too many) exactly when the maximum exceeds `count` or the
minimum is below 1, and otherwise succeeds with the number list
deduplicated in first-occurrence order (the result is duplicate-free). -/
theorem selection_errors_amended (t : String) (count : Nat)
    (h : pixivGuard t = true) :
    (universalSelection t count = .tooMany ↔
      10 < (unduplicate (extractNumbers t)).length) ∧
    ((unduplicate (extractNumbers t)).length ≤ 10 →
      (universalSelection t count = .outOfBounds ↔
        (count < (unduplicate (extractNumbers t)).max?.getD 0 ∨
          (unduplicate (extractNumbers t)).min?.getD 0 < 1))) ∧
    ((unduplicate (extractNumbers t)).length ≤ 10 →
      (unduplicate (extractNumbers t)).max?.getD 0 ≤ count →
      1 ≤ (unduplicate (extractNumbers t)).min?.getD 0 →
      universalSelection t count = .ok (unduplicate (extractNumbers t))) ∧
    (unduplicate (extractNumbers t)).Nodup := by
  have hrun : universalSelection t count =
      selectBranch (unduplicate (extractNumbers t)) count := by
    unfold universalSelection
    rw [h]
    simp
  rw [hrun]
  have hs := selectBranch_spec (unduplicate (extractNumbers t)) count
  exact ⟨hs.1, hs.2.1, hs.2.2, unduplicate_nodup _⟩

/-- Witness for `selection_errors_amended` at `"1 1 2"`, count 10 (also
showing the success case: the dedup list is `[1, 2]`). -/
theorem selection_errors_amended_witness :
    pixivGuard "1 1 2" = true ∧
      universalSelection "1 1 2" 10 = .ok [1, 2] ∧
      unduplicate (extractNumbers "1 1 2") = [1, 2] :=
  ⟨by decide,
    by
      have h := selection_errors_amended "1 1 2" 10 (by decide)
      have he : unduplicate (extractNumbers "1 1 2") = [1, 2] := by decide
      refine ⟨?_, he⟩
      have := h.2.2.1 (by rw [he]; decide) (by rw [he]; decide)
        (by rw [he]; decide)
      rw [this, he]⟩

/-- C7 counterexample: the extractor returns `None` (not an empty
sequence) on the empty string, and on text containing a pixiv reference
before a twitter reference it returns the twitter triple first — the
output is grouped by platform, not ordered by first occurrence in the
text. -/
theorem formatter_cex :
    formatter "" = none ∧
    formatter "www.pixiv.net/artworks/3 then twitter.com/bob/status/7" =
      some [⟨TWITTER, "https://twitter.com/bob/status/7", 7⟩,
            ⟨PIXIV, "https://www.pixiv.net/artworks/3", 3⟩] := by
  constructor
  · rfl
  · rfl

/-- C7 amended: on non-empty text the extractor always returns a list
(never an error), consisting of every twitter match in text order followed
by every pixiv match in text order, duplicates included; non-empty text
with no recognizable reference yields the empty list; empty (falsy) text
yields `None`. Shown here: the general no-error shape, plus concrete runs
for the unmatched, duplicate and mixed-platform cases. -/
theorem formatter_amended (q : String) (h : q ≠ "") :
    formatter q =
      some (scanLinks twitterTry q.data ++ scanLinks pixivTry q.data) ∧
    formatter "no artwork references here" = some [] ∧
    formatter "www.pixiv.net/artworks/5 www.pixiv.net/artworks/5" =
      some [⟨PIXIV, "https://www.pixiv.net/artworks/5", 5⟩,
            ⟨PIXIV, "https://www.pixiv.net/artworks/5", 5⟩] ∧
    formatter "pixiv.net/artworks/1 twitter.com/a/status/2" =
      some [⟨TWITTER, "https://twitter.com/a/status/2", 2⟩,
            ⟨PIXIV, "https://www.pixiv.net/artworks/1", 1⟩] := by
  refine ⟨?_, rfl, rfl, rfl⟩
  simp [formatter, h]

/-- Witness for `formatter_amended` at the one-character text `"x"`. -/
theorem formatter_amended_witness :
    ("x" : String) ≠ "" ∧
      (formatter "x" =
        some (scanLinks twitterTry "x".data ++ scanLinks pixivTry "x".data) ∧
       formatter "no artwork references here" = some [] ∧
       formatter "www.pixiv.net/artworks/5 www.pixiv.net/artworks/5" =
         some [⟨PIXIV, "https://www.pixiv.net/artworks/5", 5⟩,
               ⟨PIXIV, "https://www.pixiv.net/artworks/5", 5⟩] ∧
       formatter "pixiv.net/artworks/1 twitter.com/a/status/2" =
         some [⟨TWITTER, "https://twitter.com/a/status/2", 2⟩,
               ⟨PIXIV, "https://www.pixiv.net/artworks/1", 1⟩]) :=
  ⟨by decide, formatter_amended "x" (by decide)⟩

/-! ### Resolver lemmas (for C6) -/

/-- When no row with the identity exists, every row has a key mismatch. -/
theorem countArt_eq_zero_of_findArt_none (arts : List ArtRow)
    (aid atype : Nat) (h : findArt arts aid atype = none) :
    countArt arts aid atype = 0 := by
  unfold findArt at h
  rw [List.find?_eq_none] at h
  unfold countArt
  rw [List.length_eq_zero, List.filter_eq_nil_iff]
  intro a ha
  exact h a ha

/-- Creating a fresh row: when the identity is absent, `resolveArt` appends
a row carrying exactly the supplied files. -/
theorem filesOf_resolveArt_of_none (aid atype : Nat) (f : List String) :
    ∀ arts : List ArtRow, findArt arts aid atype = none →
      filesOf (resolveArt arts aid atype f) aid atype = some f := by
  intro arts
  induction arts with
  | nil => intro _; simp [resolveArt, filesOf, findArt]
  | cons a rest ih =>
      intro h
      have hk : ¬(a.aid = aid ∧ a.atype = atype) := by
        intro hk
        unfold findArt at h
        rw [List.find?_cons_of_pos _ (by simpa using hk)] at h
        exact Option.noConfusion h
      have hrest : findArt rest aid atype = none := by
        unfold findArt at h ⊢
        rwa [List.find?_cons_of_neg _ (by simpa using hk)] at h
      simp only [resolveArt, if_neg hk]
      unfold filesOf findArt
      rw [List.find?_cons_of_neg _ (by simpa using hk)]
      exact ih hrest

/-- Backfill: when a row with the identity exists with files `g`, the files
after a resolve call are `f` exactly when `f` is non-empty and `g` empty,
and `g` otherwise. -/
theorem filesOf_resolveArt_of_some (aid atype : Nat) (f g : List String) :
    ∀ arts : List ArtRow, filesOf arts aid atype = some g →
      filesOf (resolveArt arts aid atype f) aid atype =
        some (if f ≠ [] ∧ g = [] then f else g) := by
  intro arts
  induction arts with
  | nil => intro h; simp [filesOf, findArt] at h
  | cons a rest ih =>
      intro h
      by_cases hk : a.aid = aid ∧ a.atype = atype
      · have hg : a.files = g := by
          unfold filesOf findArt at h
          rw [List.find?_cons_of_pos _ (by simpa using hk)] at h
          simpa using h
        simp only [resolveArt, if_pos hk]
        by_cases hb : f ≠ [] ∧ a.files = []
        · rw [if_pos hb]
          unfold filesOf findArt
          rw [List.find?_cons_of_pos _ (by simpa using hk)]
          rw [if_pos ⟨hb.1, hg.symm.trans hb.2⟩]
          rfl
        · rw [if_neg hb]
          unfold filesOf findArt
          rw [List.find?_cons_of_pos _ (by simpa using hk)]
          have hnb : ¬(f ≠ [] ∧ g = []) := by
            rw [← hg]; exact hb
          rw [if_neg hnb, ← hg]
          rfl
      · have hrest : filesOf rest aid atype = some g := by
          unfold filesOf findArt at h ⊢
          rwa [List.find?_cons_of_neg _ (by simpa using hk)] at h
        simp only [resolveArt, if_neg hk]
        unfold filesOf findArt
        rw [List.find?_cons_of_neg _ (by simpa using hk)]
        exact ih hrest

/-- A resolve call makes the identity's row count `max 1` of what it was:
it creates the single row when absent and adds nothing when present. -/
theorem countArt_resolveArt (aid atype : Nat) (f : List String) :
    ∀ arts : List ArtRow,
      countArt (resolveArt arts aid atype f) aid atype =
        max 1 (countArt arts aid atype) := by
  intro arts
  induction arts with
  | nil => simp [resolveArt, countArt]
  | cons a rest ih =>
      by_cases hk : a.aid = aid ∧ a.atype = atype
      · simp only [resolveArt, if_pos hk]
        have hmax : ∀ n : Nat, max 1 (n + 1) = n + 1 := fun n =>
          Nat.max_eq_right (Nat.succ_le_succ (Nat.zero_le n))
        by_cases hb : f ≠ [] ∧ a.files = []
        · rw [if_pos hb]
          unfold countArt
          rw [List.filter_cons_of_pos (by simpa using hk),
            List.filter_cons_of_pos (by simpa using hk)]
          simp only [List.length_cons]
          rw [hmax]
        · rw [if_neg hb]
          unfold countArt
          rw [List.filter_cons_of_pos (by simpa using hk)]
          simp only [List.length_cons]
          rw [hmax]
      · simp only [resolveArt, if_neg hk]
        unfold countArt at ih ⊢
        rw [List.filter_cons_of_neg (by simpa using hk),
          List.filter_cons_of_neg (by simpa using hk)]
        exact ih

/-- Running further resolve calls never changes the row count once a row
exists. -/
theorem countArt_runResolve (aid atype : Nat) :
    ∀ (fs : List (List String)) (arts : List ArtRow),
      1 ≤ countArt arts aid atype →
      countArt (runResolve arts aid atype fs) aid atype =
        countArt arts aid atype := by
  intro fs
  induction fs with
  | nil => intro arts _; rfl
  | cons f rest ih =>
      intro arts h1
      have hstep := countArt_resolveArt aid atype f arts
      have hmax : max 1 (countArt arts aid atype) = countArt arts aid atype :=
        Nat.max_eq_right h1
      unfold runResolve
      rw [List.foldl_cons]
      have := ih (resolveArt arts aid atype f)
        (by rw [hstep]; exact Nat.le_max_left 1 _)
      unfold runResolve at this
      rw [this, hstep, hmax]

/-- First-writer-wins over a whole call sequence: once the identity's row
exists with files `g`, the files after the sequence are `g` if `g` was
already non-empty, and the first non-empty supplied files otherwise. -/
theorem filesOf_runResolve (aid atype : Nat) :
    ∀ (fs : List (List String)) (arts : List ArtRow) (g : List String),
      filesOf arts aid atype = some g →
      filesOf (runResolve arts aid atype fs) aid atype =
        some (if g = [] then firstNonEmpty fs else g) := by
  intro fs
  induction fs with
  | nil =>
      intro arts g h
      simp only [runResolve, List.foldl_nil, firstNonEmpty, List.find?_nil]
      rw [h]
      by_cases hg : g = [] <;> simp [hg]
  | cons f rest ih =>
      intro arts g h
      have hstep := filesOf_resolveArt_of_some aid atype f g arts h
      unfold runResolve
      rw [List.foldl_cons]
      have hrec := ih (resolveArt arts aid atype f) _ hstep
      unfold runResolve at hrec
      rw [hrec]
      by_cases hg : g = []
      · by_cases hf : f = []
        · simp only [hf, hg, ne_eq, not_true_eq_false, false_and, if_false,
            if_true]
          simp [firstNonEmpty, List.find?_cons, hg, hf]
        · simp only [hg, ne_eq, hf, not_false_eq_true, and_self, if_true,
            if_neg hf]
          simp [firstNonEmpty, List.find?_cons, hf]
      · have : (if f ≠ [] ∧ g = [] then f else g) = g := by simp [hg]
        rw [this, if_neg hg, if_neg hg]

/-- C6: starting from a store with no row for the identity, a non-empty
sequence of resolve calls leaves exactly one row for it, its files are the
first non-empty files supplied across the calls, and a further call can
never overwrite them once they are non-empty. -/
theorem resolver_files_first_writer (arts : List ArtRow) (aid atype : Nat)
    (fs : List (List String)) (f : List String)
    (h0 : findArt arts aid atype = none) (hne : fs ≠ []) :
    countArt (runResolve arts aid atype fs) aid atype = 1 ∧
    filesOf (runResolve arts aid atype fs) aid atype =
      some (firstNonEmpty fs) ∧
    (firstNonEmpty fs ≠ [] →
      filesOf (runResolve arts aid atype (fs ++ [f])) aid atype =
        some (firstNonEmpty fs)) := by
  obtain ⟨f0, rest, rfl⟩ : ∃ f0 rest, fs = f0 :: rest := by
    cases fs with
    | nil => exact absurd rfl hne
    | cons f0 rest => exact ⟨f0, rest, rfl⟩
  have hc0 : countArt arts aid atype = 0 :=
    countArt_eq_zero_of_findArt_none arts aid atype h0
  have hstep1 : filesOf (resolveArt arts aid atype f0) aid atype = some f0 :=
    filesOf_resolveArt_of_none aid atype f0 arts h0
  have hcnt1 : countArt (resolveArt arts aid atype f0) aid atype = 1 := by
    rw [countArt_resolveArt, hc0]
    rfl
  have hfiles : filesOf (runResolve arts aid atype (f0 :: rest)) aid atype =
      some (firstNonEmpty (f0 :: rest)) := by
    unfold runResolve
    rw [List.foldl_cons]
    have := filesOf_runResolve aid atype rest (resolveArt arts aid atype f0)
      f0 hstep1
    unfold runResolve at this
    rw [this]
    by_cases hf0 : f0 = []
    · simp [hf0, firstNonEmpty, List.find?_cons]
    · simp [hf0, firstNonEmpty, List.find?_cons]
  refine ⟨?_, hfiles, ?_⟩
  · unfold runResolve
    rw [List.foldl_cons]
    have := countArt_runResolve aid atype rest (resolveArt arts aid atype f0)
      (by omega)
    unfold runResolve at this
    rw [this, hcnt1]
  · intro hnz
    have happ : runResolve arts aid atype ((f0 :: rest) ++ [f]) =
        resolveArt (runResolve arts aid atype (f0 :: rest)) aid atype f := by
      unfold runResolve
      rw [List.foldl_append, List.foldl_cons, List.foldl_nil]
    rw [happ]
    have := filesOf_resolveArt_of_some aid atype f (firstNonEmpty (f0 :: rest))
      (runResolve arts aid atype (f0 :: rest)) hfiles
    rw [this, if_neg (by simp [hnz])]

/-- Witness for `resolver_files_first_writer`: empty store, identity
`(type 0, aid 1)`, call sequence `[[], ["a"], ["b"]]` and an extra call
`["c"]`; the surviving files are `["a"]`, the first non-empty supplied. -/
theorem resolver_files_first_writer_witness :
    findArt [] 1 0 = none ∧
    ([[], ["a"], ["b"]] : List (List String)) ≠ [] ∧
    (countArt (runResolve [] 1 0 [[], ["a"], ["b"]]) 1 0 = 1 ∧
     filesOf (runResolve [] 1 0 [[], ["a"], ["b"]]) 1 0 =
       some (firstNonEmpty [[], ["a"], ["b"]]) ∧
     (firstNonEmpty [[], ["a"], ["b"]] ≠ [] →
       filesOf (runResolve [] 1 0 ([[], ["a"], ["b"]] ++ [["c"]])) 1 0 =
         some (firstNonEmpty [[], ["a"], ["b"]]))) :=
  ⟨rfl, by decide,
    resolver_files_first_writer [] 1 0 [[], ["a"], ["b"]] ["c"] rfl
      (by decide)⟩

/-- C5 counterexample: running `migrate_db`'s loop on two non-forwarded
artposts of the same identity, the second Post is written with
`is_original = true` even though an Artwork row for the identity already
exists (it is not the first Post ever recorded for that Artwork). -/
theorem write_time_marking_cex :
    migrateStep ⟨[], []⟩ ⟨1, 0, [], 5, 1, 10, false⟩ =
      .ok ⟨[⟨1, 0, []⟩], [⟨1, 0, 5, 1, 10, true, false⟩]⟩ ∧
    countArt [⟨1, 0, ([] : List String)⟩] 1 0 = 1 ∧
    migrateStep ⟨[⟨1, 0, []⟩], [⟨1, 0, 5, 1, 10, true, false⟩]⟩
        ⟨1, 0, [], 5, 2, 20, false⟩ =
      .ok ⟨[⟨1, 0, []⟩],
           [⟨1, 0, 5, 1, 10, true, false⟩, ⟨1, 0, 5, 2, 20, true, false⟩]⟩ := by
  refine ⟨rfl, rfl, rfl⟩

/-- C5 amended: `migrate_db` marks a new Post `is_original = not
is_forwarded`, ignoring whether the Artwork already existed; `main.py`'s
`check_original` is a bare prior-existence test (true exactly when no
Artwork row for the identity exists), and its `universal` handler records a
Post only in that case (with `is_original` hardcoded true) — later postings
of the same identity are skipped with a warning rather than recorded with
`false`. -/
theorem write_time_marking_amended (s : MStore) (ap : ArtPost) (s' : MStore)
    (h : migrateStep s ap = .ok s') :
    s'.posts = s.posts ++ [mkPostRow ap] ∧
    (mkPostRow ap).is_original = !ap.is_forwarded ∧
    check_original s.arts ap.aid ap.atype =
      decide (countArt s.arts ap.aid ap.atype = 0) := by
  refine ⟨?_, rfl, ?_⟩
  · unfold migrateStep insertPostRow at h
    by_cases hd : hasPost s.posts (mkPostRow ap).channel_id
        (mkPostRow ap).post_id
    · rw [if_pos hd] at h
      exact absurd h (by simp)
    · rw [if_neg hd] at h
      simp only [Except.ok.injEq] at h
      rw [← h]
  · unfold check_original
    rcases Nat.eq_zero_or_pos (countArt s.arts ap.aid ap.atype) with h0 | h0
    · simp [h0]
    · simp [h0, Nat.pos_iff_ne_zero.mp h0]

/-- Witness for `write_time_marking_amended`: a forwarded artpost into an
empty store; the written Post carries `is_original = false`. -/
theorem write_time_marking_amended_witness :
    migrateStep ⟨[], []⟩ ⟨1, 0, [], 5, 1, 10, true⟩ =
      .ok ⟨[⟨1, 0, []⟩], [⟨1, 0, 5, 1, 10, false, true⟩]⟩ ∧
    (MStore.posts ⟨[⟨1, 0, []⟩], [⟨1, 0, 5, 1, 10, false, true⟩]⟩ =
      MStore.posts ⟨[], []⟩ ++ [mkPostRow ⟨1, 0, [], 5, 1, 10, true⟩] ∧
     (mkPostRow ⟨1, 0, [], 5, 1, 10, true⟩).is_original = !true ∧
     check_original (MStore.arts ⟨[], []⟩) 1 0 =
       decide (countArt (MStore.arts ⟨[], []⟩) 1 0 = 0)) :=
  ⟨rfl, write_time_marking_amended ⟨[], []⟩ ⟨1, 0, [], 5, 1, 10, true⟩
    ⟨[⟨1, 0, []⟩], [⟨1, 0, 5, 1, 10, false, true⟩]⟩ rfl⟩

/-- C8 counterexample: an insert of a Post whose `(channel_id, post_id)`
collides with an existing row does not complete as a success-with-no-change
— `migrate_db` has no handler for the constraint violation, so the step
fails. -/
theorem duplicate_insert_cex :
    hasPost [⟨1, 0, 5, 7, 9, true, false⟩] 5 7 = true ∧
    migrateStep ⟨[⟨1, 0, []⟩], [⟨1, 0, 5, 7, 9, true, false⟩]⟩
        ⟨1, 0, [], 5, 7, 10, false⟩ = .error "uix_post" := by
  refine ⟨rfl, rfl⟩

/-- C8 amended: a colliding Artwork insert is avoided (find-or-create: when
a row for the identity exists, no second row is created and the step
succeeds), but a colliding Post insert is a propagated failure: the
uniqueness violation raises out of `migrate_db` uncaught. -/
theorem duplicate_insert_amended (s : MStore) (ap : ArtPost) :
    (hasPost s.posts ap.channel_id ap.post_id = true →
      migrateStep s ap = .error "uix_post") ∧
    (hasPost s.posts ap.channel_id ap.post_id = false →
      migrateStep s ap =
        .ok ⟨resolveArt s.arts ap.aid ap.atype ap.files,
             s.posts ++ [mkPostRow ap]⟩ ∧
      countArt (resolveArt s.arts ap.aid ap.atype ap.files) ap.aid ap.atype =
        max 1 (countArt s.arts ap.aid ap.atype)) := by
  constructor
  · intro hd
    unfold migrateStep insertPostRow
    rw [show (mkPostRow ap).channel_id = ap.channel_id from rfl,
      show (mkPostRow ap).post_id = ap.post_id from rfl, hd]
    rfl
  · intro hd
    refine ⟨?_, countArt_resolveArt ap.aid ap.atype ap.files s.arts⟩
    unfold migrateStep insertPostRow
    rw [show (mkPostRow ap).channel_id = ap.channel_id from rfl,
      show (mkPostRow ap).post_id = ap.post_id from rfl, hd]
    rfl

/-- Witness for `duplicate_insert_amended` at a store already holding the
`(channel 5, post 7)` row and the identity `(type 0, aid 1)`. -/
theorem duplicate_insert_amended_witness :
    hasPost [⟨1, 0, 5, 7, 9, true, false⟩] 5 7 = true ∧
    (migrateStep ⟨[⟨1, 0, []⟩], [⟨1, 0, 5, 7, 9, true, false⟩]⟩
        ⟨1, 0, [], 5, 7, 10, false⟩ = .error "uix_post") :=
  ⟨by decide,
    (duplicate_insert_amended ⟨[⟨1, 0, []⟩], [⟨1, 0, 5, 7, 9, true, false⟩]⟩
      ⟨1, 0, [], 5, 7, 10, false⟩).1 (by decide)⟩

/-- C1 counterexample: the reconciliation loop keeps the first Post in row
order, not the one with minimum `post_date`, and never forces it to true.
First group: the post with the later date (5) stays original while the
earlier-dated (3) one is cleared. Second group: the first-row post was not
original (forwarded), so after the pass no post of the group is original at
all. -/
theorem reconciliation_cex :
    reconcileGroup [⟨1, 0, 5, 1, 5, true, false⟩, ⟨1, 0, 5, 2, 3, true, false⟩]
      = [⟨1, 0, 5, 1, 5, true, false⟩, ⟨1, 0, 5, 2, 3, false, false⟩] ∧
    reconcileGroup [⟨1, 0, 5, 1, 5, false, true⟩, ⟨1, 0, 5, 2, 7, true, false⟩]
      = [⟨1, 0, 5, 1, 5, false, true⟩, ⟨1, 0, 5, 2, 7, false, false⟩] ∧
    ([⟨1, 0, 5, 1, 5, false, true⟩,
      (⟨1, 0, 5, 2, 7, false, false⟩ : PostRow)].all
        (fun p => !p.is_original)) = true := by
  refine ⟨rfl, rfl, rfl⟩

/-- C1 amended: after one run of the pass on an artwork's post list, every
post except the first in row (insertion) order has `is_original = false`;
the first post keeps whatever flag it had (it is neither forced to true nor
chosen by `post_date`), the non-flag fields and the length are untouched,
and the pass is idempotent. -/
theorem reconciliation_amended (ps : List PostRow) :
    ((reconcileGroup ps).drop 1).all (fun p => !p.is_original) = true ∧
    (reconcileGroup ps).head? = ps.head? ∧
    (reconcileGroup ps).length = ps.length ∧
    reconcileGroup (reconcileGroup ps) = reconcileGroup ps := by
  cases ps with
  | nil => exact ⟨rfl, rfl, rfl, rfl⟩
  | cons h t =>
      cases t with
      | nil => exact ⟨rfl, rfl, rfl, rfl⟩
      | cons h2 t2 =>
          have hlen : 1 < (h :: h2 :: t2).length := by
            simp
          have he : reconcileGroup (h :: h2 :: t2) =
              h :: (h2 :: t2).map (fun p => { p with is_original := false }) := by
            unfold reconcileGroup
            rw [if_pos hlen]
          refine ⟨?_, ?_, ?_, ?_⟩
          · rw [he]
            simp [List.all_eq_true]
          · rw [he]
            rfl
          · rw [he]
            simp
          · rw [he]
            have hlen2 : 1 <
                (h :: (h2 :: t2).map
                  (fun p => { p with is_original := false })).length := by
              simp
            unfold reconcileGroup
            rw [if_pos hlen2]
            simp only [List.map_map]
            rfl

end Yaminui
